import Mathlib

/-!
Verification of the worm library (capability-typed process memory access).

The definitions below are a shallow embedding of the C++ sources:
  - include/worm/worm.hpp   (mode algebra, handle interface)
  - src/worm/worm.cpp       (POSIX and Windows backends)
  - worm.inl                (typed accessors read/write, bound values)

Machine integers are modelled as Nat or Int; C++ exceptions are modelled as
an explicit error type returned through Except.
-/

set_option linter.unusedVariables false

deriving instance DecidableEq for Except

/-- Errors thrown by the library. The worm code itself throws only
std.system_error values built by make_system_error with an errno-style code
and a static context string; std.stoull inside regions() can additionally
throw std.invalid_argument or std.out_of_range, which are modelled by the
last two constructors. -/
inductive Err where
  | systemError (code : Int) (what : String)
  | invalidArgument
  | outOfRange
deriving DecidableEq

/-- ConstructionError of the taxonomy: the system_error thrown by the handle
constructor (Windows backend, OpenProcess failure). -/
def isConstructionError : Err → Bool
  | Err.systemError _ w => w = "failed to open a process handle"
  | _ => false

/-- IOError of the taxonomy: the system_error thrown by read_bytes or
write_bytes on a failed transfer. -/
def isIOError : Err → Bool
  | Err.systemError _ w =>
      w = "failed to read from virtual memory" || w = "failed to write to virtual memory"
  | _ => false

/-- EnumerationError of the taxonomy: the system_error thrown by the Windows
module enumerator. -/
def isEnumerationError : Err → Bool
  | Err.systemError _ w =>
      w = "failed to count process modules during initial enumeration" ||
        w = "failed to enumerate process modules"
  | _ => false

/-- Whether an error belongs to the three-way typed taxonomy of the spec. -/
def isTypedError (e : Err) : Bool :=
  isConstructionError e || isIOError e || isEnumerationError e

/-- handle_mode.in flag (1 << 0), embedded as a Nat bitmask value. -/
def hm_in : Nat := 1

/-- handle_mode.out flag (1 << 1), embedded as a Nat bitmask value. -/
def hm_out : Nat := 2

/-- operator& on handle_mode: bitwise conjunction of the underlying ints. -/
def hm_and (lhs rhs : Nat) : Nat := Nat.land lhs rhs

/-- operator| on handle_mode: bitwise disjunction of the underlying ints. -/
def hm_or (lhs rhs : Nat) : Nat := Nat.lor lhs rhs

/-- static constexpr bool readable = static_cast(Mode & handle_mode.in). -/
def readable (Mode : Nat) : Bool := hm_and Mode hm_in != 0

/-- static constexpr bool writable = static_cast(Mode & handle_mode.out). -/
def writable (Mode : Nat) : Bool := hm_and Mode hm_out != 0

/-- memory_region: a name and the iota_view address range (start, end). -/
structure memory_region where
  name : String
  range : Nat × Nat
deriving DecidableEq

/-- Index of the first occurrence of a character in a list, if any. -/
def charFindIdx (c : Char) : List Char → Option Nat
  | [] => none
  | x :: xs => if x = c then some 0 else (charFindIdx c xs).map (· + 1)

/-- std.string.find(c): index of the first occurrence, none models npos. -/
def strFind (s : String) (c : Char) : Option Nat :=
  charFindIdx c s.data

/-- std.string.rfind(c): index of the last occurrence, none models npos. -/
def strRfind (s : String) (c : Char) : Option Nat :=
  (charFindIdx c s.data.reverse).map (fun i => s.data.length - 1 - i)

/-- std.string.substr(pos, len). -/
def substrLen (s : String) (pos len : Nat) : String :=
  String.mk ((s.data.drop pos).take len)

/-- std.string.substr(pos): suffix starting at pos. -/
def substrFrom (s : String) (pos : Nat) : String :=
  String.mk (s.data.drop pos)

/-- isspace in the C locale, used by strtoull to skip leading whitespace. -/
def isCSpace (c : Char) : Bool :=
  c = ' ' || c = '\t' || c = '\n' || c = '\x0b' || c = '\x0c' || c = '\r'

/-- Hexadecimal digit test, as accepted by strtoull with base 16. -/
def isHexDigitC (c : Char) : Bool :=
  ('0' ≤ c && c ≤ '9') || ('a' ≤ c && c ≤ 'f') || ('A' ≤ c && c ≤ 'F')

/-- Numeric value of a hexadecimal digit. -/
def hexDigitVal (c : Char) : Nat :=
  if '0' ≤ c && c ≤ '9' then c.toNat - 48
  else if 'a' ≤ c && c ≤ 'f' then c.toNat - 87
  else c.toNat - 55

/-- strtoull base-16 prefix handling: a leading 0x or 0X is consumed only
when a hexadecimal digit follows it. -/
def strip0x : List Char → List Char
  | '0' :: 'x' :: c :: cs => if isHexDigitC c then c :: cs else '0' :: 'x' :: c :: cs
  | '0' :: 'X' :: c :: cs => if isHexDigitC c then c :: cs else '0' :: 'X' :: c :: cs
  | cs => cs

/-- ULLONG_MAX on the 64-bit targets the library supports. -/
def ULLONG_MAX : Nat := 2 ^ 64 - 1

/-- std.stoull(s, nullptr, 16), following strtoull semantics: skip C-locale
whitespace, accept one optional sign, an optional 0x prefix, then a run of
hexadecimal digits. No digit at all throws std.invalid_argument; a digit
value above ULLONG_MAX throws std.out_of_range; a minus sign negates the
value modulo 2^64. -/
def stoull16 (s : String) : Except Err Nat :=
  let cs0 := s.data.dropWhile isCSpace
  let neg : Bool := match cs0 with | '-' :: _ => true | _ => false
  let cs1 := match cs0 with
    | '-' :: rest => rest
    | '+' :: rest => rest
    | cs => cs
  let ds := (strip0x cs1).takeWhile isHexDigitC
  if ds.isEmpty then Except.error Err.invalidArgument
  else
    let v := ds.foldl (fun acc c => acc * 16 + hexDigitVal c) 0
    if ULLONG_MAX < v then Except.error Err.outOfRange
    else Except.ok (if neg then (2 ^ 64 - v % 2 ^ 64) % 2 ^ 64 else v)

/-- Body of one iteration of the regions() loop on a row that contains a
space at index first_delim_index. It mirrors the POSIX branch of
handle.regions in src/worm/worm.cpp: the range token is the prefix before
the first space, it is split on the first hyphen, both halves go through
std.stoull base 16, and the name is the suffix after the last space.
When the token has no hyphen, find returns npos: substr(0, npos) is the
whole token and substr(npos + 1) wraps to substr(0), again the whole token,
so both stoull calls then receive the full range token. When rfind returns
npos (unreachable when a space exists), npos + 1 wraps to 0 and substr(0)
is the whole row. -/
def parseRow (row : String) (first_delim_index : Nat) : Except Err memory_region :=
  let range_str := substrLen row 0 first_delim_index
  let name := match strRfind row ' ' with
    | some j => substrFrom row (j + 1)
    | none => row
  match strFind range_str '-' with
  | some range_delim_index =>
    match stoull16 (substrLen range_str 0 range_delim_index) with
    | Except.error e => Except.error e
    | Except.ok a =>
      match stoull16 (substrFrom range_str (range_delim_index + 1)) with
      | Except.error e => Except.error e
      | Except.ok b => Except.ok ⟨name, (a, b)⟩
  | none =>
    match stoull16 range_str with
    | Except.error e => Except.error e
    | Except.ok a =>
      match stoull16 range_str with
      | Except.error e => Except.error e
      | Except.ok b => Except.ok ⟨name, (a, b)⟩

/-- POSIX regions() loop over the rows of the /proc/pid/maps listing.
The loop ends at end of input, breaks without error on the first row with
no space, and lets any stoull exception propagate, discarding the vector
built so far. -/
def regionsOfLines : List String → Except Err (List memory_region)
  | [] => Except.ok []
  | row :: rest =>
    match strFind row ' ' with
    | none => Except.ok []
    | some first_delim_index =>
      match parseRow row first_delim_index with
      | Except.error e => Except.error e
      | Except.ok r =>
        match regionsOfLines rest with
        | Except.error e => Except.error e
        | Except.ok rs => Except.ok (r :: rs)

/-- POSIX regions() including the stream state: none models an ifstream
that failed to open, in which case the first getline fails leaving the row
empty, the row has no space, and the loop breaks immediately with an empty
vector. -/
def regionsFromListing : Option (List String) → Except Err (List memory_region)
  | none => Except.ok []
  | some ls => regionsOfLines ls

/-- Target-process memory as seen by process_vm_readv and process_vm_writev:
a partial byte map (none is an unmapped address) and a writability flag. -/
structure OSMem where
  mem : Nat → Option Nat
  wr : Nat → Bool

/-- errno value reported by process_vm_readv and process_vm_writev when the
remote address range is invalid. Other errno causes (ESRCH, EPERM, ...) are
abstracted into the same failing branch; the library only forwards the code
into the system_error unchanged. -/
def EFAULT : Int := 14

/-- Maximal readable span: the bytes at addr, addr+1, ... until the first
unmapped address or until size bytes were taken. -/
def readSpan (m : Nat → Option Nat) : Nat → Nat → List Nat
  | _, 0 => []
  | a, Nat.succ n =>
    match m a with
    | none => []
    | some b => b :: readSpan m (a + 1) n

/-- process_vm_readv with a single local and a single remote iovec of the
given size: transfers the maximal mapped span starting at addr and returns
its length; returns -1 (errno EFAULT) when a nonempty request starts at an
unmapped address, per the partial-transfer semantics of the syscall. -/
def process_vm_readv (os : OSMem) (addr size : Nat) : Int × List Nat :=
  let bs := readSpan os.mem addr size
  if 0 < size && bs.length == 0 then (-1, [])
  else ((bs.length : Int), bs)

/-- Length of the maximal prefix of bs whose target addresses are mapped
and writable. -/
def writeCount (os : OSMem) : Nat → List Nat → Nat
  | _, [] => 0
  | a, _ :: bs =>
    if (os.mem a).isSome && os.wr a then writeCount os (a + 1) bs + 1 else 0

/-- Store bs into memory starting at address a. -/
def storeBytes (os : OSMem) (a : Nat) (bs : List Nat) : OSMem :=
  { os with
    mem := fun x => if a ≤ x && x < a + bs.length then some (bs.getD (x - a) 0) else os.mem x }

/-- process_vm_writev with a single local and a single remote iovec:
writes the maximal writable prefix and returns its length; returns -1
(errno EFAULT) when a nonempty request starts at an unwritable address. -/
def process_vm_writev (os : OSMem) (addr : Nat) (bs : List Nat) : Int × OSMem :=
  let k := writeCount os addr bs
  if 0 < bs.length && k == 0 then (-1, os)
  else ((k : Int), storeBytes os addr (bs.take k))

/-- Record of one underlying OS transfer request, used to state that an
operation issues exactly one such request for the whole range. -/
structure SysCall where
  isWrite : Bool
  pid : Nat
  addr : Nat
  size : Nat
deriving DecidableEq

/-- handle.read_bytes (POSIX branch): one process_vm_readv call for the
whole range; a negative result throws the system_error with context
"failed to read from virtual memory", a non-negative result is returned
as the transferred byte count, with the transferred bytes placed in the
caller buffer (returned here alongside the count). The gate argument h
embeds the requires-readable clause: the member simply does not exist on
a handle type whose Mode lacks the in flag. -/
def handle.read_bytes (Mode : Nat) (h : readable Mode = true) (pid : Nat) (os : OSMem)
    (src size : Nat) : Except Err (Nat × List Nat) × List SysCall :=
  let r := process_vm_readv os src size
  ((if 0 ≤ r.1 then Except.ok (r.1.toNat, r.2)
    else Except.error (Err.systemError EFAULT "failed to read from virtual memory")),
   [⟨false, pid, src, size⟩])

/-- handle.write_bytes (POSIX branch): one process_vm_writev call for the
whole range; a negative result throws the system_error with context
"failed to write to virtual memory", a non-negative result is returned as
the transferred byte count. The gate argument h embeds the
requires-writable clause. -/
def handle.write_bytes (Mode : Nat) (h : writable Mode = true) (pid : Nat) (os : OSMem)
    (dst : Nat) (src : List Nat) : (Except Err Nat × OSMem) × List SysCall :=
  let r := process_vm_writev os dst src
  (((if 0 ≤ r.1 then Except.ok r.1.toNat
     else Except.error (Err.systemError EFAULT "failed to write to virtual memory")), r.2),
   [⟨true, pid, dst, src.length⟩])

/-- handle.read (typed accessor, worm.inl): declares local storage for T
(whose prior, unspecified contents are the uninit bytes), lets read_bytes
fill it, and returns it without inspecting the transferred count, so bytes
past a partial transfer keep their uninit values. A value of T is
represented by its sizeof(T) bytes, as the accessor itself only moves raw
bytes. -/
def handle.read (Mode : Nat) (h : readable Mode = true) (pid : Nat) (os : OSMem)
    (addr size : Nat) (uninit : List Nat) : Except Err (List Nat) × List SysCall :=
  match handle.read_bytes Mode h pid os addr size with
  | (Except.ok r, tr) => (Except.ok (r.2 ++ uninit.drop r.2.length), tr)
  | (Except.error e, tr) => (Except.error e, tr)

/-- handle.write (typed accessor, worm.inl): forwards the byte
representation of the value to write_bytes. -/
def handle.write (Mode : Nat) (h : writable Mode = true) (pid : Nat) (os : OSMem)
    (addr : Nat) (value : List Nat) : (Except Err Nat × OSMem) × List SysCall :=
  handle.write_bytes Mode h pid os addr value

/-- PROCESS_VM_READ access flag. -/
def PROCESS_VM_READ : Nat := 16

/-- PROCESS_QUERY_LIMITED_INFORMATION access flag. -/
def PROCESS_QUERY_LIMITED_INFORMATION : Nat := 4096

/-- PROCESS_VM_OPERATION access flag. -/
def PROCESS_VM_OPERATION : Nat := 8

/-- PROCESS_VM_WRITE access flag. -/
def PROCESS_VM_WRITE : Nat := 32

/-- Desired-access mask passed to OpenProcess by the Windows system_handle
constructor, derived from the readable and writable flags of the mode. -/
def accessFlags (Mode : Nat) : Nat :=
  Nat.lor
    (if readable Mode then Nat.lor PROCESS_VM_READ PROCESS_QUERY_LIMITED_INFORMATION else 0)
    (if writable Mode then Nat.lor PROCESS_VM_OPERATION PROCESS_VM_WRITE else 0)

/-- Windows branch of handle construction: system_handle calls OpenProcess
with the mode-derived access mask; a null handle throws the system_error
with context "failed to open a process handle" carrying GetLastError. The
openProcess argument models the OS call (access mask and pid to an optional
native handle value). -/
def handle.construct_windows (Mode : Nat) (openProcess : Nat → Nat → Option Nat)
    (lastError : Int) (pid : Nat) : Except Err Nat :=
  match openProcess (accessFlags Mode) pid with
  | some native => Except.ok native
  | none => Except.error (Err.systemError lastError "failed to open a process handle")

/-- POSIX branch of handle construction: system_handle has no members and
no constructor body, so construction just stores the pid, performs no OS
call, and cannot fail. -/
def handle.construct_posix (pid : Nat) : Except Err Nat :=
  Except.ok pid

/-- Mode-gated regions(): available only on readable handles; delegates to
the listing parser. -/
def handle.regions (Mode : Nat) (h : readable Mode = true)
    (listing : Option (List String)) : Except Err (List memory_region) :=
  regionsFromListing listing

/-- Writable partially-mapped memory used by concrete witnesses: bytes 0
and 1 hold 7 and are writable, everything else is unmapped. -/
def osW : OSMem :=
  ⟨fun x => if x < 2 then some 7 else none, fun x => decide (x < 2)⟩

/-- C1: capability gating is structural. The worm handle is a template over
Mode whose members read_bytes, read and regions carry a requires-readable
clause and write_bytes and write a requires-writable clause; in this
embedding those clauses are the gate hypotheses readable Mode = true and
writable Mode = true demanded by handle.read_bytes, handle.read,
handle.regions, handle.write_bytes and handle.write before any other
argument is consumed, so a violating call cannot even be formed and no I/O
is reached. This theorem settles the gates for the three instantiated
handle types: on the Read-only mode the writable gate is false (so no
write call is expressible), on the Write-only mode the readable gate is
false, and the combined mode grants both. -/
theorem c1_capability_gating :
    readable hm_in = true ∧ writable hm_in = false ∧
    readable hm_out = false ∧ writable hm_out = true ∧
    readable (hm_or hm_in hm_out) = true ∧ writable (hm_or hm_in hm_out) = true := by
  decide

/-- C2: for a listing row with its first space at index f, a hyphen at
index d of the range token, both hex halves parsing to a and b, and its
last space at index j, the region parser returns name = the suffix after
the last space, start = a, end = b. -/
theorem c2_row_parse (row : String) (f d a b j : Nat)
    (hf : strFind row ' ' = some f)
    (hj : strRfind row ' ' = some j)
    (hd : strFind (substrLen row 0 f) '-' = some d)
    (ha : stoull16 (substrLen (substrLen row 0 f) 0 d) = Except.ok a)
    (hb : stoull16 (substrFrom (substrLen row 0 f) (d + 1)) = Except.ok b) :
    regionsOfLines [row] = Except.ok [⟨substrFrom row (j + 1), (a, b)⟩] := by
  simp only [regionsOfLines, hf, parseRow, hj, hd, ha, hb]

/-- C2 witness: the spec row yields name "/lib/x.so", start 0x7f0000 and
end 0x7f1000. -/
theorem c2_row_parse_witness :
    regionsOfLines ["7f0000-7f1000 r-xp 00000000 08:01 1234 /lib/x.so"] =
      Except.ok [⟨"/lib/x.so", (8323072, 8327168)⟩] :=
  c2_row_parse "7f0000-7f1000 r-xp 00000000 08:01 1234 /lib/x.so" 13 6 8323072 8327168 38
    (by decide) (by decide) (by decide) (by decide) (by decide)

/-- C4: read_bytes and write_bytes each issue exactly one underlying
transfer request covering the whole requested range, fail with the IOError
system_error exactly when the underlying call reports a negative result,
and otherwise return the transferred byte count unchanged, so a partial
transfer (count below the requested size) is returned as success. -/
theorem c4_single_transfer_error_policy (Mode : Nat) (hR : readable Mode = true)
    (hW : writable Mode = true) (pid : Nat) (os : OSMem) (src size : Nat)
    (value : List Nat) :
    (handle.read_bytes Mode hR pid os src size).2 = [⟨false, pid, src, size⟩] ∧
    ((process_vm_readv os src size).1 < 0 →
      (handle.read_bytes Mode hR pid os src size).1 =
        Except.error (Err.systemError EFAULT "failed to read from virtual memory")) ∧
    (0 ≤ (process_vm_readv os src size).1 →
      (handle.read_bytes Mode hR pid os src size).1 =
        Except.ok ((process_vm_readv os src size).1.toNat, (process_vm_readv os src size).2)) ∧
    isIOError (Err.systemError EFAULT "failed to read from virtual memory") = true ∧
    (handle.write_bytes Mode hW pid os src value).2 = [⟨true, pid, src, value.length⟩] ∧
    ((process_vm_writev os src value).1 < 0 →
      (handle.write_bytes Mode hW pid os src value).1.1 =
        Except.error (Err.systemError EFAULT "failed to write to virtual memory")) ∧
    (0 ≤ (process_vm_writev os src value).1 →
      (handle.write_bytes Mode hW pid os src value).1.1 =
        Except.ok (process_vm_writev os src value).1.toNat) ∧
    isIOError (Err.systemError EFAULT "failed to write to virtual memory") = true := by
  refine ⟨rfl, fun hneg => ?_, fun hpos => ?_, by decide, rfl,
    fun hneg => ?_, fun hpos => ?_, by decide⟩
  · simp only [handle.read_bytes]
    rw [if_neg (Int.not_le.mpr hneg)]
  · simp only [handle.read_bytes]
    rw [if_pos hpos]
  · simp only [handle.write_bytes]
    rw [if_neg (Int.not_le.mpr hneg)]
  · simp only [handle.write_bytes]
    rw [if_pos hpos]

/-- C4 witness: on memory with only two mapped bytes, a four-byte read
returns success with count 2 (partial transfer is success), the trace is
one request for the full range, and a three-byte write returns count 2. -/
theorem c4_single_transfer_error_policy_witness :
    (handle.read_bytes 3 (by decide) 1 osW 0 4).2 = [⟨false, 1, 0, 4⟩] ∧
    (handle.read_bytes 3 (by decide) 1 osW 0 4).1 = Except.ok (2, [7, 7]) ∧
    (handle.write_bytes 3 (by decide) 1 osW 0 [7, 7, 7]).1.1 = Except.ok 2 := by
  have h := c4_single_transfer_error_policy 3 (by decide) (by decide) 1 osW 0 4 [7, 7, 7]
  exact ⟨h.1, h.2.2.1 (by decide), h.2.2.2.2.2.2.1 (by decide)⟩

/-- C6: when OpenProcess fails for the requested access mask and pid, the
Windows handle constructor throws the ConstructionError system_error
carrying the OS error code; the POSIX (identifier-only) constructor
performs no OS call and always succeeds. -/
theorem c6_construction_failure (Mode : Nat) (openProcess : Nat → Nat → Option Nat)
    (lastError : Int) (pid : Nat)
    (hfail : openProcess (accessFlags Mode) pid = none) :
    handle.construct_windows Mode openProcess lastError pid =
      Except.error (Err.systemError lastError "failed to open a process handle") ∧
    isConstructionError (Err.systemError lastError "failed to open a process handle") = true ∧
    handle.construct_posix pid = Except.ok pid := by
  refine ⟨?_, by simp [isConstructionError], rfl⟩
  simp only [handle.construct_windows, hfail]

/-- C6 witness: a concrete always-failing OpenProcess yields the
ConstructionError, and the POSIX constructor succeeds for the same pid. -/
theorem c6_construction_failure_witness :
    handle.construct_windows 3 (fun acc p => none) 5 1234 =
      Except.error (Err.systemError 5 "failed to open a process handle") ∧
    isConstructionError (Err.systemError 5 "failed to open a process handle") = true ∧
    handle.construct_posix 1234 = Except.ok 1234 :=
  c6_construction_failure 3 (fun acc p => none) 5 1234 rfl

/-- C7 (bug evidence): the listing row "zz-qq x" contains a space, so the
enumeration loop commits to parsing it, but its range token is not
hexadecimal, so std.stoull throws std.invalid_argument, which is none of
the three typed errors of the taxonomy and propagates untyped out of
regions(), contradicting the documented std.system_error-only contract. -/
theorem c7_untyped_stoull_error :
    regionsOfLines ["zz-qq x"] = Except.error Err.invalidArgument ∧
    isTypedError Err.invalidArgument = false ∧
    strFind "zz-qq x" ' ' = some 5 := by
  decide

/-- C8 counterexample: the parser copies the two hexadecimal values of a
row verbatim, so the row "5-3 x" produces a returned region whose range is
(5, 3) with end 3 strictly below start 5; regions() never checks end ≥
start. -/
theorem c8_counterexample :
    regionsOfLines ["5-3 x"] = Except.ok [⟨"x", (5, 3)⟩] ∧ 3 < 5 := by
  decide

/-- C9 counterexample: the listing whose only row is "gg-hh y" provides no
parseable row (its single row fails to parse), yet regions() raises
std.invalid_argument instead of returning the empty list. -/
theorem c9_counterexample :
    regionsOfLines ["gg-hh y"] = Except.error Err.invalidArgument ∧
    strFind "gg-hh y" ' ' = some 5 ∧
    (parseRow "gg-hh y" 5 = Except.error Err.invalidArgument) := by
  decide

/-- C10: the typed read discards the count reported by read_bytes: whenever
the underlying transfer succeeds with any count, read returns the locally
allocated storage with the transferred bytes at the front and the original
unspecified (uninit) bytes left in place after them, never an error, even
when the count is below the requested size. -/
theorem c10_read_discards_count (Mode : Nat) (h : readable Mode = true) (pid : Nat)
    (os : OSMem) (addr size : Nat) (uninit : List Nat)
    (hok : 0 ≤ (process_vm_readv os addr size).1) :
    (handle.read Mode h pid os addr size uninit).1 =
      Except.ok ((process_vm_readv os addr size).2 ++
        uninit.drop (process_vm_readv os addr size).2.length) := by
  simp only [handle.read, handle.read_bytes]
  rw [if_pos hok]

/-- C10 witness: with only two mapped bytes, a four-byte typed read
succeeds and returns the two transferred bytes followed by two leftover
uninitialized bytes, rather than an error. -/
theorem c10_read_discards_count_witness :
    (handle.read 3 (by decide) 1 osW 0 4 [9, 9, 9, 9]).1 = Except.ok [7, 7, 9, 9] :=
  c10_read_discards_count 3 (by decide) 1 osW 0 4 [9, 9, 9, 9] (by decide)

/-- Whether a listing row is accepted by one loop iteration: it has a
space and its parse succeeds. -/
def rowParses (row : String) : Bool :=
  match strFind row ' ' with
  | none => false
  | some f =>
    match parseRow row f with
    | Except.ok _ => true
    | Except.error _ => false

/-- Region produced from a row that parses (a default region otherwise). -/
def rowRegionD (row : String) : memory_region :=
  match strFind row ' ' with
  | none => ⟨"", (0, 0)⟩
  | some f =>
    match parseRow row f with
    | Except.ok r => r
    | Except.error _ => ⟨"", (0, 0)⟩

/-- On a prefix of rows that all parse, the loop accumulates their regions
and continues with the remaining rows. -/
theorem regionsOfLines_append (rows rest : List String) (h : rows.all rowParses = true) :
    regionsOfLines (rows ++ rest) =
      (regionsOfLines rest).map (fun rs => rows.map rowRegionD ++ rs) := by
  induction rows with
  | nil =>
    simp only [List.nil_append, List.map_nil]
    cases regionsOfLines rest <;> simp [Except.map]
  | cons row rows ih =>
    simp only [List.all_cons, Bool.and_eq_true] at h
    obtain ⟨h1, h2⟩ := h
    rcases hsf : strFind row ' ' with _ | f
    · simp only [rowParses, hsf] at h1
      exact absurd h1 (by simp)
    · rcases hpr : parseRow row f with e | r
      · simp only [rowParses, hsf, hpr] at h1
        exact absurd h1 (by simp)
      · simp only [List.cons_append, regionsOfLines, hsf, hpr, List.append_eq]
        rw [ih h2]
        cases hrest : regionsOfLines rest <;>
          simp [Except.map, rowRegionD, hsf, hpr]

/-- C5: enumeration stops without any error at end of input, or at the
first row with no space delimiter, in both cases returning exactly the
regions of the rows already parsed; a malformed (space-free) trailing row
never raises. -/
theorem c5_lenient_stop (rows : List String) (bad : String) (rest : List String)
    (hgood : rows.all rowParses = true) (hbad : strFind bad ' ' = none) :
    regionsOfLines (rows ++ bad :: rest) = Except.ok (rows.map rowRegionD) ∧
    regionsOfLines rows = Except.ok (rows.map rowRegionD) := by
  constructor
  · rw [regionsOfLines_append rows (bad :: rest) hgood]
    simp [regionsOfLines, hbad, Except.map]
  · have h := regionsOfLines_append rows [] hgood
    simpa [regionsOfLines, Except.map] using h

/-- C5 witness: one good row followed by a space-free row stops cleanly,
returning only the region of the good row, even though a later row would
fail to parse; end of input after the good row behaves the same. -/
theorem c5_lenient_stop_witness :
    regionsOfLines ["0-1 a", "bad", "x y"] = Except.ok [⟨"a", (0, 1)⟩] ∧
    regionsOfLines ["0-1 a"] = Except.ok [⟨"a", (0, 1)⟩] :=
  c5_lenient_stop ["0-1 a"] "bad" ["x y"] (by decide) (by decide)

/-- Whether every row of a listing that parses to a region has a range
with start at most end. -/
def rowsRangesOk (lines : List String) : Bool :=
  lines.all fun row =>
    match strFind row ' ' with
    | none => true
    | some f =>
      match parseRow row f with
      | Except.ok r => decide (r.range.1 ≤ r.range.2)
      | Except.error _ => true

/-- C8 (amended): every returned region carries exactly the start and end
values parsed from its row, so end is at least start for every returned
region provided every parseable row of the listing satisfies it; the
parser itself never enforces or restores this. -/
theorem c8_amended_nonneg (lines : List String) (rs : List memory_region)
    (hok : rowsRangesOk lines = true) (hres : regionsOfLines lines = Except.ok rs) :
    rs.all (fun r => decide (r.range.1 ≤ r.range.2)) = true := by
  induction lines generalizing rs with
  | nil =>
    simp only [regionsOfLines, Except.ok.injEq] at hres
    subst hres
    rfl
  | cons row rest ih =>
    simp only [rowsRangesOk, List.all_cons, Bool.and_eq_true] at hok
    obtain ⟨hrow, hrest⟩ := hok
    rcases hsf : strFind row ' ' with _ | f
    · simp only [regionsOfLines, hsf, Except.ok.injEq] at hres
      subst hres
      rfl
    · rcases hpr : parseRow row f with e | r
      · simp only [regionsOfLines, hsf, hpr] at hres
        exact absurd hres (by simp)
      · rcases hrs : regionsOfLines rest with e2 | rs2
        · simp only [regionsOfLines, hsf, hpr, hrs] at hres
          exact absurd hres (by simp)
        · simp only [regionsOfLines, hsf, hpr, hrs, Except.ok.injEq] at hres
          subst hres
          simp only [hsf, hpr] at hrow
          simp only [List.all_cons, Bool.and_eq_true]
          exact ⟨hrow, ih rs2 hrest hrs⟩

/-- C8 amended witness: a listing whose single row has range 0-1 yields a
region list in which every region has start at most end. -/
theorem c8_amended_nonneg_witness :
    ([⟨"a", (0, 1)⟩] : List memory_region).all
      (fun r => decide (r.range.1 ≤ r.range.2)) = true :=
  c8_amended_nonneg ["0-1 a"] [⟨"a", (0, 1)⟩] (by decide) (by decide)

/-- C9 (amended): enumeration of a process with no mappings, of an
unopenable listing, or of a listing whose first row has no space delimiter
returns the empty region list without raising. -/
theorem c9_empty_is_valid (listing : Option (List String))
    (hempty : listing = none ∨ listing = some [] ∨
      ∃ row rest, listing = some (row :: rest) ∧ strFind row ' ' = none) :
    regionsFromListing listing = Except.ok [] := by
  rcases hempty with rfl | rfl | ⟨row, rest, rfl, hrow⟩
  · rfl
  · rfl
  · simp [regionsFromListing, regionsOfLines, hrow]

/-- C9 amended witness: an unopenable listing and a listing whose first
row is space-free both enumerate to the empty list without raising. -/
theorem c9_empty_is_valid_witness :
    regionsFromListing (some ["nospace"]) = Except.ok [] ∧
    regionsFromListing none = Except.ok [] :=
  ⟨c9_empty_is_valid (some ["nospace"]) (Or.inr (Or.inr ⟨"nospace", [], rfl, by decide⟩)),
   c9_empty_is_valid none (Or.inl rfl)⟩

/-- Fully mapped writable memory over the first eight addresses, used by
the round-trip witness. -/
def osFull : OSMem :=
  ⟨fun x => if x < 8 then some 0 else none, fun x => decide (x < 8)⟩

/-- When the whole target range is mapped and writable, writeCount covers
the full buffer. -/
theorem writeCount_all (os : OSMem) (v : List Nat) : ∀ (a : Nat),
    (∀ i, i < v.length → ((os.mem (a + i)).isSome = true ∧ os.wr (a + i) = true)) →
    writeCount os a v = v.length := by
  induction v with
  | nil => intro a h; rfl
  | cons b bs ih =>
    intro a h
    have h0 := h 0 (by simp)
    rw [Nat.add_zero] at h0
    simp only [writeCount, h0.1, h0.2, Bool.and_self, if_true]
    have hrec := ih (a + 1) (fun i hi => by
      have hs := h (i + 1) (by simpa using Nat.succ_lt_succ hi)
      rwa [show a + (i + 1) = a + 1 + i by omega] at hs)
    rw [hrec]
    rfl

/-- Reading a span whose bytes are all present returns exactly those
bytes. -/
theorem readSpan_pointwise (v : List Nat) : ∀ (a : Nat) (m : Nat → Option Nat),
    (∀ i, i < v.length → m (a + i) = some (v.getD i 0)) →
    readSpan m a v.length = v := by
  induction v with
  | nil => intro a m h; rfl
  | cons b bs ih =>
    intro a m h
    have h0 := h 0 (by simp)
    rw [Nat.add_zero] at h0
    simp only [List.length_cons, readSpan, h0]
    rw [ih (a + 1) m (fun i hi => by
      have hs := h (i + 1) (by simpa using Nat.succ_lt_succ hi)
      rw [show a + (i + 1) = a + 1 + i by omega] at hs
      simpa using hs)]
    simp

/-- Bytes freshly stored at an address are what the memory then holds. -/
theorem storeBytes_mem_in (os : OSMem) (a : Nat) (bs : List Nat) (i : Nat)
    (hi : i < bs.length) :
    (storeBytes os a bs).mem (a + i) = some (bs.getD i 0) := by
  have h1 : a ≤ a + i := Nat.le_add_right a i
  have h2 : a + i < a + bs.length := by omega
  simp [storeBytes, h1, h2]

/-- process_vm_writev on a fully mapped, writable range transfers the
whole buffer and stores it. -/
theorem process_vm_writev_all (os : OSMem) (addr : Nat) (v : List Nat)
    (hmap : ∀ i, i < v.length → ((os.mem (addr + i)).isSome = true ∧ os.wr (addr + i) = true)) :
    process_vm_writev os addr v = ((v.length : Int), storeBytes os addr v) := by
  simp only [process_vm_writev, writeCount_all os v addr hmap, List.take_length]
  rcases v with _ | ⟨b, bs⟩ <;> simp

/-- process_vm_readv over a freshly stored range returns exactly the
stored bytes with a full count. -/
theorem process_vm_readv_after_store (os : OSMem) (addr : Nat) (v : List Nat) :
    process_vm_readv (storeBytes os addr v) addr v.length = ((v.length : Int), v) := by
  have hr : readSpan (storeBytes os addr v).mem addr v.length = v :=
    readSpan_pointwise v addr _ (fun i hi => storeBytes_mem_in os addr v i hi)
  unfold process_vm_readv
  rw [hr]
  rcases v with _ | ⟨b, bs⟩ <;> simp

/-- C3: round-trip. On a handle whose mode grants both capabilities, for a
mapped, writable address range and a fixed-size value (its byte
representation), write(a, v) succeeds transferring all bytes and a
following read at a returns v exactly. -/
theorem c3_roundtrip (Mode : Nat) (hR : readable Mode = true) (hW : writable Mode = true)
    (pid : Nat) (os : OSMem) (addr : Nat) (v uninit : List Nat)
    (hmap : ∀ i, i < v.length → ((os.mem (addr + i)).isSome = true ∧ os.wr (addr + i) = true))
    (hu : uninit.length = v.length) :
    (handle.write Mode hW pid os addr v).1.1 = Except.ok v.length ∧
    (handle.read Mode hR pid (handle.write Mode hW pid os addr v).1.2 addr v.length uninit).1 =
      Except.ok v := by
  have hw := process_vm_writev_all os addr v hmap
  have hmem : (handle.write Mode hW pid os addr v).1.2 = storeBytes os addr v := by
    simp only [handle.write, handle.write_bytes, hw]
  constructor
  · simp only [handle.write, handle.write_bytes, hw]
    rw [if_pos (Int.natCast_nonneg v.length)]
    simp
  · have hrb : handle.read_bytes Mode hR pid (storeBytes os addr v) addr v.length =
        (Except.ok (v.length, v), [⟨false, pid, addr, v.length⟩]) := by
      simp only [handle.read_bytes, process_vm_readv_after_store]
      rw [if_pos (Int.natCast_nonneg v.length)]
      simp
    rw [hmem]
    simp only [handle.read, hrb]
    rw [← hu, List.drop_length, List.append_nil]

/-- C3 witness: writing the three bytes 1, 2, 3 at address 2 of a fully
mapped writable memory transfers all three, and the following typed read
returns exactly those bytes again. -/
theorem c3_roundtrip_witness :
    (handle.write 3 (by decide) 1 osFull 2 [1, 2, 3]).1.1 = Except.ok 3 ∧
    (handle.read 3 (by decide) 1 (handle.write 3 (by decide) 1 osFull 2 [1, 2, 3]).1.2
      2 3 [9, 9, 9]).1 = Except.ok [1, 2, 3] := by
  have h := c3_roundtrip 3 (by decide) (by decide) 1 osFull 2 [1, 2, 3] [9, 9, 9]
    (by decide) (by decide)
  exact ⟨h.1, h.2⟩
